import Mathlib

/-!
A shallow embedding of a CHIP-8 emulator core (the opcode decoder, the
machine-state record and the single-step execution engine), together with
theorems checking the documented behaviour of each instruction.

Machine integers (u8, u16) are modelled as Nat with explicit reduction
modulo 2^8 or 2^16 where the original arithmetic wraps; operations that
panic in the original (indexing out of bounds, popping an empty stack,
slicing past the end of memory) return Option, with none standing for the
panic.
-/

/-- The machine state: mirrors the struct Chip8 of the source, with Vec u8
and Vec u16 rendered as List Nat and Vec bool as List Bool. -/
structure Chip8 where
  memory : List Nat
  program_counter : Nat
  v : List Nat
  reg_i : Nat
  stack : List Nat
  delay_timer : Nat
  sound_timer : Nat
  keyboard : List Bool
  display_memory : List Bool
  rng : Bool
deriving DecidableEq

/-- The initial state built by the source function init. -/
def init : Chip8 :=
  { memory := List.replicate 4096 0
    v := List.replicate 16 0
    reg_i := 0
    program_counter := 512
    stack := []
    delay_timer := 0
    sound_timer := 0
    keyboard := List.replicate 16 false
    display_memory := List.replicate (64 * 32) false
    rng := false }

/-- Flow-control opcodes, mirroring enum FlowControlOpcode. -/
inductive FlowControlOpcode where
  | Jump (addr : Nat)
  | JumpPlusV0 (addr : Nat)
  | Call (addr : Nat)
  | Return
deriving DecidableEq

/-- Regular opcodes, mirroring enum RegularOpcode. -/
inductive RegularOpcode where
  | SysCall
  | SkipIfRegValEqual (x value : Nat)
  | SkipIfRegValNotEqual (x value : Nat)
  | SkipIfRegRegEqual (x y : Nat)
  | SkipIfRegRegNotEqual (x y : Nat)
  | SkipIfKeyPressed (x : Nat)
  | SkipIfKeyNotPressed (x : Nat)
  | LoadValToReg (x value : Nat)
  | LoadRegToReg (x y : Nat)
  | LoadDelayTimerToReg (x : Nat)
  | LoadKeyToReg (x : Nat)
  | LoadRegToDelayTimer (x : Nat)
  | LoadRegToSoundTimer (x : Nat)
  | LoadValToI (value : Nat)
  | LoadSpriteLocationToI (x : Nat)
  | LoadRegBcdToMem (x : Nat)
  | LoadRegsToMem (n : Nat)
  | LoadMemToRegs (n : Nat)
  | LoadRandomAndValToReg (x value : Nat)
  | SubRegFromReg (x y : Nat)
  | SubnRegFromReg (x y : Nat)
  | AddValToReg (x value : Nat)
  | AddRegToI (x : Nat)
  | OrRegReg (x y : Nat)
  | AndRegReg (x y : Nat)
  | XorRegReg (x y : Nat)
  | AddRegToReg (x y : Nat)
  | ShiftRightReg (x : Nat)
  | ShiftLeftReg (x : Nat)
  | ClearScreen
  | DrawSprite (x y n : Nat)
deriving DecidableEq

/-- Decoded instruction classes, mirroring enum MetaOpcode. -/
inductive MetaOpcode where
  | FlowControl (op : FlowControlOpcode)
  | Regular (op : RegularOpcode)
  | Unknown (w : Nat)
deriving DecidableEq

/-- The opcode decoder, mirroring fn parse_opcode.  Nibbles a b c d are
extracted by shifting and masking with 0xF: a shift right by k bits is a
division by 2^k and the 0xF mask is a reduction modulo 16; nnn is the low
12 bits and kk the low 8 bits.  The source matches the 4-tuple of nibbles
against an ordered list of patterns, first match winning; here that
ordered match is organised by its leading nibble — the patterns of each
leading nibble are kept in source order, every tuple pattern is rendered
as an equality test on the nibbles it constrains, and the final catch-all
gives Unknown — which preserves the first-match semantics arm for arm. -/
def parse_opcode (opcode : Nat) : MetaOpcode :=
  let a := (opcode / 4096) % 16
  let b := (opcode / 256) % 16
  let c := (opcode / 16) % 16
  let d := (opcode / 1) % 16
  let nnn := opcode % 4096
  let kk := opcode % 256
  match a with
  | 0 =>
    if b = 0 ∧ c = 0xE ∧ d = 0 then .Regular .ClearScreen
    else if b = 0 ∧ c = 0xE ∧ d = 0xE then .FlowControl .Return
    else .Regular .SysCall
  | 1 => .FlowControl (.Jump nnn)
  | 2 => .FlowControl (.Call nnn)
  | 3 => .Regular (.SkipIfRegValEqual b kk)
  | 4 => .Regular (.SkipIfRegValNotEqual b kk)
  | 5 => if d = 0 then .Regular (.SkipIfRegRegEqual b c) else .Unknown opcode
  | 6 => .Regular (.LoadValToReg b kk)
  | 7 => .Regular (.AddValToReg b kk)
  | 8 =>
    if d = 0 then .Regular (.LoadRegToReg b c)
    else if d = 1 then .Regular (.OrRegReg b c)
    else if d = 2 then .Regular (.AndRegReg b c)
    else if d = 3 then .Regular (.XorRegReg b c)
    else if d = 4 then .Regular (.AddRegToReg b c)
    else if d = 5 then .Regular (.SubRegFromReg b c)
    else if d = 6 then .Regular (.ShiftLeftReg b)
    else if d = 7 then .Regular (.SubnRegFromReg b c)
    else if d = 0xE then .Regular (.ShiftRightReg b)
    else .Unknown opcode
  | 9 => if d = 0 then .Regular (.SkipIfRegRegNotEqual b c) else .Unknown opcode
  | 0xA => .Regular (.LoadValToI nnn)
  | 0xB => .FlowControl (.JumpPlusV0 nnn)
  | 0xC => .Regular (.LoadRandomAndValToReg b kk)
  | 0xD => .Regular (.DrawSprite b c d)
  | 0xE =>
    if c = 9 ∧ d = 0xE then .Regular (.SkipIfKeyPressed b)
    else if c = 0xA ∧ d = 1 then .Regular (.SkipIfKeyNotPressed b)
    else .Unknown opcode
  | 0xF =>
    if c = 0 ∧ d = 7 then .Regular (.LoadDelayTimerToReg b)
    else if c = 0 ∧ d = 0xA then .Regular (.LoadKeyToReg b)
    else if c = 1 ∧ d = 5 then .Regular (.LoadRegToDelayTimer b)
    else if c = 1 ∧ d = 8 then .Regular (.LoadRegToSoundTimer b)
    else if c = 1 ∧ d = 0xE then .Regular (.AddRegToI b)
    else if c = 2 ∧ d = 9 then .Regular (.LoadSpriteLocationToI b)
    else if c = 3 ∧ d = 3 then .Regular (.LoadRegBcdToMem b)
    else if c = 5 ∧ d = 5 then .Regular (.LoadRegsToMem b)
    else if c = 6 ∧ d = 5 then .Regular (.LoadMemToRegs b)
    else .Unknown opcode
  | _ => .Unknown opcode

/-- Functional push, mirroring fn push: copies the vector and appends at
the end. -/
def push (vec : List α) (x : α) : List α :=
  vec ++ [x]

/-- Functional pop, mirroring fn pop: removes the last element; the
original panics on an empty vector, which is modelled by none. -/
def pop (vec : List α) : Option (List α × α) :=
  match vec.getLast? with
  | none => none
  | some x => some (vec.dropLast, x)

/-- Functional element replacement, mirroring fn replace: writes index i;
the original panics when i is out of bounds, which is modelled by none. -/
def replace (vec : List α) (i : Nat) (x : α) : Option (List α) :=
  if i < vec.length then some (vec.set i x) else none

/-- Expansion of a byte into 8 pixels most-significant-bit first,
mirroring fn byte_to_bits. -/
def byte_to_bits (b : Nat) : List Bool :=
  [ (1 : Nat) == (1 &&& (b >>> 7))
  , (1 : Nat) == (1 &&& (b >>> 6))
  , (1 : Nat) == (1 &&& (b >>> 5))
  , (1 : Nat) == (1 &&& (b >>> 4))
  , (1 : Nat) == (1 &&& (b >>> 3))
  , (1 : Nat) == (1 &&& (b >>> 2))
  , (1 : Nat) == (1 &&& (b >>> 1))
  , (1 : Nat) == (1 &&& (b >>> 0)) ]

/-- The slice memory[lo .. lo + n] read by DrawSprite: Vec::get on a range
returns None exactly when the upper bound exceeds the length, and the
source unwraps it with expect (modelled by the Option). -/
def sliceBytes (memory : List Nat) (lo n : Nat) : Option (List Nat) :=
  if lo + n ≤ memory.length then some ((memory.drop lo).take n) else none

/-- Inner loop of DrawSprite over the 8 pixels of one sprite row, xx being
the column cursor: each pixel is XORed into the framebuffer at index
(start_x + xx) % 64 + ((start_y + yy) % 32) * 64, and vf becomes 1 when a
lit pixel is turned off; indexing a too-short framebuffer panics (none). -/
def drawBits (start_x start_y yy : Nat) (bits : List Bool) (xx : Nat)
    (dm : List Bool) (vf : Nat) : Option (List Bool × Nat) :=
  match bits with
  | [] => some (dm, vf)
  | pix :: rest =>
    let pos := (start_x + xx) % 64 + ((start_y + yy) % 32) * 64
    match dm[pos]? with
    | none => none
    | some old =>
      let xored := xor old pix
      let vf' := if old && !xored then 1 else vf
      drawBits start_x start_y yy rest (xx + 1) (dm.set pos xored) vf'

/-- Outer loop of DrawSprite over the sprite rows, yy being the row
cursor. -/
def drawLines (start_x start_y : Nat) (lines : List (List Bool)) (yy : Nat)
    (dm : List Bool) (vf : Nat) : Option (List Bool × Nat) :=
  match lines with
  | [] => some (dm, vf)
  | l :: rest => do
    let (dm', vf') ← drawBits start_x start_y yy l 0 dm vf
    drawLines start_x start_y rest (yy + 1) dm' vf'

/-- Execution of one Regular opcode, mirroring the inner match of fn step:
only SysCall, LoadValToReg, LoadValToI, LoadRandomAndValToReg,
AddValToReg, SkipIfRegValEqual and DrawSprite act; every other shape falls
to the catch-all and leaves the state unchanged.  Register reads v[x] and
writes through replace panic when out of bounds (none); the u8 addition of
AddValToReg and the u16 additions to the program counter wrap.  After a
draw the source renders the frame, reading every index below 64 * 32 of
the framebuffer, which panics when the framebuffer is shorter. -/
def execRegular (chip8 : Chip8) (op : RegularOpcode) : Option Chip8 :=
  match op with
  | .SysCall => some chip8
  | .LoadValToReg x value => do
    let v' ← replace chip8.v x value
    some { chip8 with v := v' }
  | .LoadValToI value => some { chip8 with reg_i := value }
  | .LoadRandomAndValToReg x value => do
    let v' ← replace chip8.v x ((if chip8.rng then 1 else 0) &&& value)
    some { chip8 with v := v', rng := !chip8.rng }
  | .AddValToReg x value => do
    let vx ← chip8.v[x]?
    let v' ← replace chip8.v x ((vx + value) % 256)
    some { chip8 with v := v' }
  | .SkipIfRegValEqual x value => do
    let vx ← chip8.v[x]?
    if vx = value then
      some { chip8 with program_counter := (chip8.program_counter + 2) % 65536 }
    else
      some chip8
  | .DrawSprite x y n => do
    let lines ← sliceBytes chip8.memory chip8.reg_i n
    let linesBits := lines.map byte_to_bits
    let start_x ← chip8.v[x]?
    let start_y ← chip8.v[y]?
    let (dm, vf) ← drawLines start_x start_y linesBits 0 chip8.display_memory 0
    if 64 * 32 ≤ dm.length then do
      let v' ← replace chip8.v 0xF vf
      some { chip8 with display_memory := dm, v := v' }
    else
      none
  | _ => some chip8

/-- Execution of one decoded instruction, mirroring the outer match of fn
step: FlowControl opcodes set the program counter directly; Regular
opcodes run and then the engine adds 2 to the resulting program counter
(wrapping u16); the Unknown arm returns the state as it is. -/
def execute (chip8 : Chip8) (meta : MetaOpcode) : Option Chip8 :=
  match meta with
  | .FlowControl op =>
    match op with
    | .Jump addr => some { chip8 with program_counter := addr }
    | .JumpPlusV0 addr => do
      let v0 ← chip8.v[0]?
      some { chip8 with program_counter := (addr + v0) % 65536 }
    | .Call addr =>
      some { chip8 with program_counter := addr
                        stack := push chip8.stack chip8.program_counter }
    | .Return => do
      let (new_stack, pc) ← pop chip8.stack
      some { chip8 with program_counter := pc, stack := new_stack }
  | .Regular op => do
    let res ← execRegular chip8 op
    some { res with program_counter := (res.program_counter + 2) % 65536 }
  | .Unknown _ => some chip8

/-- One full step, mirroring fn step: fetch the big-endian word at the
program counter (each byte read panics when out of bounds), decode it and
execute it. -/
def step (chip8 : Chip8) : Option Chip8 := do
  let hi ← chip8.memory[chip8.program_counter]?
  let lo ← chip8.memory[chip8.program_counter + 1]?
  execute chip8 (parse_opcode ((hi <<< 8) ||| lo))

/-! Concrete states used by the counterexamples and witnesses.  The
transition function is defined for machines of any memory or framebuffer
size (only the sizes actually touched by an instruction matter), so the
concrete machines below carry just the cells their instruction reads. -/

/-- A machine whose fetched word is 0x5001, which no decoder pattern
matches (first nibble 5 requires last nibble 0). -/
def cUnknown : Chip8 :=
  { memory := [0x50, 0x01]
    program_counter := 0
    v := List.replicate 16 0
    reg_i := 0
    stack := []
    delay_timer := 0
    sound_timer := 0
    keyboard := List.replicate 16 false
    display_memory := []
    rng := false }

/-- A machine with v[0] = 0xFF, for the wraparound check. -/
def cFF : Chip8 :=
  { cUnknown with v := (List.replicate 16 0).set 0 0xFF }

/-- A machine with the sprite byte 0xFF at address 0, reg_i = 0, v[0] = 60
and v[1] = 0, and a blank 64 by 32 framebuffer, for the draw check. -/
def cDraw : Chip8 :=
  { cUnknown with memory := [0xFF]
                  v := (List.replicate 16 0).set 0 60
                  display_memory := List.replicate (64 * 32) false }

/-- A machine with v[2] = 7, for the skip check. -/
def cSkip : Chip8 :=
  { cUnknown with v := (List.replicate 16 0).set 2 7 }

/-- A machine with a one-entry stack, for the return check. -/
def cStack : Chip8 :=
  { cUnknown with stack := [5] }

/-- Register-index operands of a Regular opcode (the x and y fields read
from the second and third nibble) are below 16; shapes that carry no
register index impose nothing. -/
def regOperandsLt16 : RegularOpcode → Prop
  | .SkipIfRegValEqual x _ => x < 16
  | .SkipIfRegValNotEqual x _ => x < 16
  | .SkipIfRegRegEqual x y => x < 16 ∧ y < 16
  | .SkipIfRegRegNotEqual x y => x < 16 ∧ y < 16
  | .SkipIfKeyPressed x => x < 16
  | .SkipIfKeyNotPressed x => x < 16
  | .LoadValToReg x _ => x < 16
  | .LoadRegToReg x y => x < 16 ∧ y < 16
  | .LoadDelayTimerToReg x => x < 16
  | .LoadKeyToReg x => x < 16
  | .LoadRegToDelayTimer x => x < 16
  | .LoadRegToSoundTimer x => x < 16
  | .LoadSpriteLocationToI x => x < 16
  | .LoadRegBcdToMem x => x < 16
  | .LoadRandomAndValToReg x _ => x < 16
  | .SubRegFromReg x y => x < 16 ∧ y < 16
  | .SubnRegFromReg x y => x < 16 ∧ y < 16
  | .AddValToReg x _ => x < 16
  | .AddRegToI x => x < 16
  | .OrRegReg x y => x < 16 ∧ y < 16
  | .AndRegReg x y => x < 16 ∧ y < 16
  | .XorRegReg x y => x < 16 ∧ y < 16
  | .AddRegToReg x y => x < 16 ∧ y < 16
  | .ShiftRightReg x => x < 16
  | .ShiftLeftReg x => x < 16
  | .DrawSprite x y _ => x < 16 ∧ y < 16
  | _ => True

/-- Register-index operands of a decoded instruction are below 16. -/
def metaOperandsLt16 : MetaOpcode → Prop
  | .Regular op => regOperandsLt16 op
  | _ => True

/-- The expected framebuffer after drawing the byte 0xFF at (60, 0) on a
blank screen: exactly the row-0 pixels at columns 60, 61, 62, 63 and,
wrapping around, 0, 1, 2, 3 are lit. -/
def row0Lit : List Bool :=
  ((((((((List.replicate (64 * 32) false).set 60 true).set 61 true).set 62
    true).set 63 true).set 0 true).set 1 true).set 2 true).set 3 true

/-- The machine after the first draw on cDraw: the wrapped row is lit, the
collision register v[0xF] is 0 and the program counter has advanced by 2. -/
def cAfter1 : Chip8 :=
  { cDraw with display_memory := row0Lit
               v := cDraw.v.set 15 0
               program_counter := 2 }

/-- The machine after drawing the same sprite a second time: every pixel
of the row is XORed off again, the collision register v[0xF] is 1 and the
program counter has advanced by 2 more. -/
def cAfter2 : Chip8 :=
  { cAfter1 with
      display_memory :=
        ((((((((cAfter1.display_memory.set 60 false).set 61 false).set 62
          false).set 63 false).set 0 false).set 1 false).set 2 false).set 3
          false)
      v := cAfter1.v.set 15 1
      program_counter := 4 }

set_option maxRecDepth 8000

/-- C1 counterexample: the word 0x5001 decodes to Unknown, yet one step on
cUnknown (whose program counter is 0 and whose fetched word is 0x5001)
returns the state completely unchanged: the program counter stays 0
instead of advancing to 2 as the claim requires. -/
theorem C1_counterexample :
    parse_opcode 0x5001 = .Unknown 0x5001 ∧
    cUnknown.program_counter = 0 ∧
    step cUnknown = some cUnknown ∧
    ¬ step cUnknown =
        some { cUnknown with program_counter := cUnknown.program_counter + 2 } := by
  have hstep : step cUnknown = some cUnknown := rfl
  refine ⟨rfl, rfl, hstep, ?_⟩
  intro h
  rw [hstep] at h
  have hpc := congrArg Chip8.program_counter (Option.some.inj h)
  simp only [] at hpc
  omega

/-- C1 amended: executing a word that decodes to Unknown leaves the whole
machine state unchanged, including the program counter, which is not
advanced at all (the Unknown arm of the engine returns the state as it is
and the unconditional +2 applies only to the Regular arm). -/
theorem C1_unknown_no_advance (c : Chip8) (hi lo u : Nat)
    (hhi : c.memory[c.program_counter]? = some hi)
    (hlo : c.memory[c.program_counter + 1]? = some lo)
    (hu : parse_opcode ((hi <<< 8) ||| lo) = .Unknown u) :
    step c = some c := by
  simp [step, hhi, hlo, hu, execute]

/-- C1 witness: the amended theorem applied to the concrete machine
cUnknown, whose fetched word is 0x5001. -/
theorem C1_unknown_no_advance_witness : step cUnknown = some cUnknown :=
  C1_unknown_no_advance cUnknown 0x50 0x01 0x5001 rfl rfl rfl

/-- C2 counterexample: with mask 2 and the initial rng cursor, the two
successive executions of LoadRandomAndValToReg leave v[0] = 0 both times
(the written value is (rng as 0/1) AND mask, whose second value is
1 AND 2 = 0), so neither execution leaves v[0] equal to the mask 2. -/
theorem C2_counterexample :
    ((execute cUnknown (.Regular (.LoadRandomAndValToReg 0 2))).bind (fun c1 =>
      (execute c1 (.Regular (.LoadRandomAndValToReg 0 2))).map (fun c2 =>
        (c1.v[0]?, c2.v[0]?))))
      = some (some 0, some 0) ∧ (0 : Nat) ≠ 2 :=
  ⟨rfl, by decide⟩

/-- C2 amended: two successive executions of LoadRandomAndValToReg with
the same mask make v[x] alternate between 0 and 1 AND mask (the low bit
of the mask, not the whole mask): the execution run with the rng cursor
false writes 0 and the one run with the cursor true writes 1 AND mask,
and the cursor flips after each consumption. -/
theorem C2_random_toggle (c : Chip8) (x mask : Nat) (h : x < c.v.length) :
    ((execute c (.Regular (.LoadRandomAndValToReg x mask))).bind (fun c1 =>
      (execute c1 (.Regular (.LoadRandomAndValToReg x mask))).map (fun c2 =>
        (c1.v[x]?, c1.rng, c2.v[x]?, c2.rng))))
    = some (some (if c.rng then 1 &&& mask else 0), !c.rng,
            some (if c.rng then 0 else 1 &&& mask), c.rng) := by
  cases hr : c.rng <;>
    simp [execute, execRegular, replace, h, hr, Nat.zero_and]

/-- C2 witness: the amended theorem applied to the concrete machine
cUnknown with x = 0 and mask = 3: the two executions write 0 then
1 AND 3 = 1, and the rng cursor goes false, true, false. -/
theorem C2_random_toggle_witness :
    ((execute cUnknown (.Regular (.LoadRandomAndValToReg 0 3))).bind (fun c1 =>
      (execute c1 (.Regular (.LoadRandomAndValToReg 0 3))).map (fun c2 =>
        (c1.v[0]?, c1.rng, c2.v[0]?, c2.rng))))
    = some (some 0, true, some 1, false) := by
  have h := C2_random_toggle cUnknown 0 3 (by decide)
  simpa [cUnknown] using h

/-- C3: AddValToReg writes (v[x] + value) mod 256 into v[x] — 8-bit
wraparound, not saturation and not an error — and advances the program
counter by the engine's unconditional 2; no other field changes. -/
theorem C3_addval_wraps (c : Chip8) (x value vx : Nat)
    (h : c.v[x]? = some vx) :
    execute c (.Regular (.AddValToReg x value)) =
      some { c with v := c.v.set x ((vx + value) % 256)
                    program_counter := (c.program_counter + 2) % 65536 } := by
  have hlt : x < c.v.length := (List.getElem?_eq_some_iff.mp h).1
  simp [execute, execRegular, replace, h, hlt]

/-- C3 witness: on the concrete machine cFF, whose v[0] is 0xFF, adding 1
to register 0 yields v[0] = 0. -/
theorem C3_addval_wraps_witness :
    (execute cFF (.Regular (.AddValToReg 0 1))).map
      (fun c => (c.v[0]?, c.program_counter)) = some (some 0, 2) := by
  rw [C3_addval_wraps cFF 0 1 0xFF rfl]
  rfl

/-- C5: SkipIfRegValEqual leaves the program counter at its pre-fetch
value plus 4 (reduced modulo 2^16) when v[x] equals the immediate, and
plus 2 otherwise — the conditional internal +2 combining with the
engine's unconditional +2 — and changes no other field. -/
theorem C5_skip_adds_4_or_2 (c : Chip8) (x value vx : Nat)
    (h : c.v[x]? = some vx) :
    execute c (.Regular (.SkipIfRegValEqual x value)) =
      some { c with program_counter :=
        if vx = value then (c.program_counter + 4) % 65536
        else (c.program_counter + 2) % 65536 } := by
  by_cases hv : vx = value
  · simp only [execute, execRegular, h, hv, if_pos, Option.bind_some]
    simp [Chip8.mk.injEq]
  · simp [execute, execRegular, h, hv]

/-- C5 witness: with v[2] = 7 the skip instruction lands the program
counter on 4 = 0 + 4, and with v[2] = 0 it lands on 2 = 0 + 2. -/
theorem C5_skip_adds_4_or_2_witness :
    (execute cSkip (.Regular (.SkipIfRegValEqual 2 7))).map
      Chip8.program_counter = some 4 ∧
    (execute cUnknown (.Regular (.SkipIfRegValEqual 2 7))).map
      Chip8.program_counter = some 2 := by
  constructor
  · rw [C5_skip_adds_4_or_2 cSkip 2 7 7 rfl]
    rfl
  · rw [C5_skip_adds_4_or_2 cUnknown 2 7 0 rfl]
    rfl

/-- C7: Call pushes the current program counter and jumps to addr, and an
immediately following Return pops it back: the composition restores the
whole state — in particular the program counter and the stack — exactly. -/
theorem C7_call_return_roundtrip (c : Chip8) (addr : Nat) :
    (execute c (.FlowControl (.Call addr))).bind
      (fun c1 => execute c1 (.FlowControl .Return)) = some c := by
  simp [execute, push, pop, List.getLast?_concat, List.dropLast_concat]

/-- C8: Return fails exactly when the stack is empty; on a non-empty
stack it pops the top (last pushed) entry into the program counter,
shrinks the stack by one and changes nothing else. -/
theorem C8_return_underflow_iff :
    (∀ c : Chip8, execute c (.FlowControl .Return) = none ↔ c.stack = []) ∧
    (∀ (c : Chip8) (s : List Nat) (top : Nat), c.stack = s ++ [top] →
      execute c (.FlowControl .Return) =
        some { c with program_counter := top, stack := s }) := by
  constructor
  · intro c
    constructor
    · intro h
      rcases hg : c.stack.getLast? with _ | x
      · exact List.getLast?_eq_none_iff.mp hg
      · simp [execute, pop, hg] at h
    · intro h
      simp [execute, pop, h]
  · intro c s top h
    simp [execute, pop, h, List.getLast?_concat, List.dropLast_concat]

/-- C8 witness: on the concrete machine cStack, whose stack is [5],
Return sets the program counter to 5 and empties the stack. -/
theorem C8_return_underflow_iff_witness :
    execute cStack (.FlowControl .Return) =
      some { cStack with program_counter := 5, stack := [] } :=
  C8_return_underflow_iff.2 cStack [] 5 rfl

/-- C6: the decoder is a total function into exactly the three classes
FlowControl, Regular and Unknown; the exact patterns 0x00E0 and 0x00EE
take precedence, and every other word with leading nibble 0 falls to the
generic SysCall arm. -/
theorem C6_decoder_total_and_precedence :
    (∀ w : Nat,
      (∃ f, parse_opcode w = .FlowControl f) ∨
      (∃ r, parse_opcode w = .Regular r) ∨
      (∃ u, parse_opcode w = .Unknown u)) ∧
    parse_opcode 0x00E0 = .Regular .ClearScreen ∧
    parse_opcode 0x00EE = .FlowControl .Return ∧
    (∀ w : Nat, w < 0x1000 → w ≠ 0x00E0 → w ≠ 0x00EE →
      parse_opcode w = .Regular .SysCall) := by
  refine ⟨?_, rfl, rfl, ?_⟩
  · intro w
    cases hp : parse_opcode w with
    | FlowControl f => exact Or.inl ⟨f, rfl⟩
    | Regular r => exact Or.inr (Or.inl ⟨r, rfl⟩)
    | Unknown u => exact Or.inr (Or.inr ⟨u, rfl⟩)
  · intro w hw h1 h2
    have ha : w / 4096 % 16 = 0 := by omega
    simp only [parse_opcode, ha]
    split_ifs <;> first | rfl | omega

/-- C6 witness: the SysCall fallback of the precedence conjunct applied
to the concrete word 0x0123. -/
theorem C6_decoder_total_and_precedence_witness :
    parse_opcode 0x0123 = .Regular .SysCall :=
  C6_decoder_total_and_precedence.2.2.2 0x0123 (by decide) (by decide)
    (by decide)

set_option maxHeartbeats 1600000 in
/-- C10: every register-index operand produced by the decoder is a 4-bit
value below 16 (it is a nibble reduced modulo 16), and reading or
replacing a register of a 16-entry register file at an index below 16
never takes the out-of-range branch. -/
theorem C10_register_operands_in_bounds :
    (∀ w : Nat, metaOperandsLt16 (parse_opcode w)) ∧
    (∀ (l : List Nat) (i x : Nat), l.length = 16 → i < 16 →
      (replace l i x).isSome = true ∧ l[i]?.isSome = true) := by
  constructor
  · intro w
    have hd : w / 4096 % 16 = 0 ∨ w / 4096 % 16 = 1 ∨ w / 4096 % 16 = 2 ∨
        w / 4096 % 16 = 3 ∨ w / 4096 % 16 = 4 ∨ w / 4096 % 16 = 5 ∨
        w / 4096 % 16 = 6 ∨ w / 4096 % 16 = 7 ∨ w / 4096 % 16 = 8 ∨
        w / 4096 % 16 = 9 ∨ w / 4096 % 16 = 10 ∨ w / 4096 % 16 = 11 ∨
        w / 4096 % 16 = 12 ∨ w / 4096 % 16 = 13 ∨ w / 4096 % 16 = 14 ∨
        w / 4096 % 16 = 15 := by omega
    rcases hd with h|h|h|h|h|h|h|h|h|h|h|h|h|h|h|h
    · simp only [parse_opcode, h]
      split_ifs <;> simp only [metaOperandsLt16, regOperandsLt16]
    · simp only [parse_opcode, h, metaOperandsLt16]
    · simp only [parse_opcode, h, metaOperandsLt16]
    · simp only [parse_opcode, h, metaOperandsLt16, regOperandsLt16]
      omega
    · simp only [parse_opcode, h, metaOperandsLt16, regOperandsLt16]
      omega
    · simp only [parse_opcode, h]
      split_ifs <;> simp only [metaOperandsLt16, regOperandsLt16]
      omega
    · simp only [parse_opcode, h, metaOperandsLt16, regOperandsLt16]
      omega
    · simp only [parse_opcode, h, metaOperandsLt16, regOperandsLt16]
      omega
    · simp only [parse_opcode, h]
      split_ifs <;> simp only [metaOperandsLt16, regOperandsLt16] <;> omega
    · simp only [parse_opcode, h]
      split_ifs <;> simp only [metaOperandsLt16, regOperandsLt16]
      omega
    · simp only [parse_opcode, h, metaOperandsLt16, regOperandsLt16]
    · simp only [parse_opcode, h, metaOperandsLt16]
    · simp only [parse_opcode, h, metaOperandsLt16, regOperandsLt16]
      omega
    · simp only [parse_opcode, h, metaOperandsLt16, regOperandsLt16]
      omega
    · simp only [parse_opcode, h]
      split_ifs <;> simp only [metaOperandsLt16, regOperandsLt16] <;> omega
    · simp only [parse_opcode, h]
      split_ifs <;> simp only [metaOperandsLt16, regOperandsLt16] <;> omega
  · intro l i x hl hi
    have hlt : i < l.length := by omega
    constructor
    · simp [replace, hlt]
    · simp [List.getElem?_eq_getElem hlt]

/-- C10 witness: the in-bounds access conjunct applied to a concrete
16-entry register file at index 5. -/
theorem C10_register_operands_in_bounds_witness :
    (replace (List.replicate 16 (0 : Nat)) 5 7).isSome = true ∧
    (List.replicate 16 (0 : Nat))[5]?.isSome = true :=
  C10_register_operands_in_bounds.2 (List.replicate 16 0) 5 7 (by decide)
    (by decide)

/-- replace never changes the length of the vector. -/
theorem replace_length (l : List α) (i : Nat) (x : α) (l' : List α)
    (h : replace l i x = some l') : l'.length = l.length := by
  by_cases hi : i < l.length
  · simp only [replace, if_pos hi, Option.some.injEq] at h
    simp [← h]
  · simp [replace, hi] at h

/-- The inner draw loop never changes the length of the framebuffer. -/
theorem drawBits_length (sx sy yy : Nat) (bits : List Bool) :
    ∀ (xx : Nat) (dm : List Bool) (vf : Nat) (dm' : List Bool) (vf' : Nat),
      drawBits sx sy yy bits xx dm vf = some (dm', vf') →
      dm'.length = dm.length := by
  induction bits with
  | nil =>
    intro xx dm vf dm' vf' h
    simp only [drawBits, Option.some.injEq, Prod.mk.injEq] at h
    simp [← h.1]
  | cons pix rest ih =>
    intro xx dm vf dm' vf' h
    simp only [drawBits] at h
    rcases hg : dm[(sx + xx) % 64 + ((sy + yy) % 32) * 64]? with _ | old
    · rw [hg] at h
      simp at h
    · rw [hg] at h
      have hlen := ih (xx + 1)
        (dm.set ((sx + xx) % 64 + ((sy + yy) % 32) * 64) (xor old pix))
        (if old && !(xor old pix) then 1 else vf) dm' vf' h
      simpa using hlen

/-- The outer draw loop never changes the length of the framebuffer. -/
theorem drawLines_length (sx sy : Nat) (lines : List (List Bool)) :
    ∀ (yy : Nat) (dm : List Bool) (vf : Nat) (dm' : List Bool) (vf' : Nat),
      drawLines sx sy lines yy dm vf = some (dm', vf') →
      dm'.length = dm.length := by
  induction lines with
  | nil =>
    intro yy dm vf dm' vf' h
    simp only [drawLines, Option.some.injEq, Prod.mk.injEq] at h
    simp [← h.1]
  | cons l rest ih =>
    intro yy dm vf dm' vf' h
    simp only [drawLines] at h
    rcases hb : drawBits sx sy yy l 0 dm vf with _ | ⟨dm1, vf1⟩
    · rw [hb] at h
      simp at h
    · rw [hb] at h
      simp only [Option.bind_eq_bind, Option.some_bind] at h
      calc dm'.length
          = dm1.length := ih (yy + 1) dm1 vf1 dm' vf' h
        _ = dm.length := drawBits_length sx sy yy l 0 dm vf dm1 vf1 hb

/-- Executing any Regular opcode preserves the lengths of the register
file, the key buffer and the framebuffer. -/
theorem execRegular_lengths (c : Chip8) (op : RegularOpcode) (res : Chip8)
    (hv : c.v.length = 16) (hk : c.keyboard.length = 16)
    (hd : c.display_memory.length = 2048)
    (h : execRegular c op = some res) :
    res.v.length = 16 ∧ res.keyboard.length = 16 ∧
      res.display_memory.length = 2048 := by
  cases op with
  | LoadValToReg x value =>
    rcases hrep : replace c.v x value with _ | v'
    · simp [execRegular, hrep] at h
    · simp only [execRegular, hrep, Option.bind_eq_bind, Option.some_bind,
        Option.some.injEq] at h
      refine ⟨?_, ?_, ?_⟩ <;>
        simp [← h, replace_length _ _ _ _ hrep, hv, hk, hd]
  | LoadRandomAndValToReg x value =>
    rcases hrep : replace c.v x ((if c.rng then 1 else 0) &&& value)
        with _ | v'
    · simp [execRegular, hrep] at h
    · simp only [execRegular, hrep, Option.bind_eq_bind, Option.some_bind,
        Option.some.injEq] at h
      refine ⟨?_, ?_, ?_⟩ <;>
        simp [← h, replace_length _ _ _ _ hrep, hv, hk, hd]
  | AddValToReg x value =>
    rcases hx : c.v[x]? with _ | vx
    · simp [execRegular, hx] at h
    · rcases hrep : replace c.v x ((vx + value) % 256) with _ | v'
      · simp [execRegular, hx, hrep] at h
      · simp only [execRegular, hx, hrep, Option.bind_eq_bind,
          Option.some_bind, Option.some.injEq] at h
        refine ⟨?_, ?_, ?_⟩ <;>
          simp [← h, replace_length _ _ _ _ hrep, hv, hk, hd]
  | SkipIfRegValEqual x value =>
    rcases hx : c.v[x]? with _ | vx
    · simp [execRegular, hx] at h
    · by_cases he : vx = value <;>
        simp only [execRegular, hx, he, Option.bind_eq_bind,
          Option.some_bind, if_pos, if_neg, Option.some.injEq,
          reduceIte] at h <;>
        refine ⟨?_, ?_, ?_⟩ <;>
        simp [← h, hv, hk, hd]
  | DrawSprite x y n =>
    rcases hs : sliceBytes c.memory c.reg_i n with _ | lines
    · simp [execRegular, hs] at h
    · rcases hx : c.v[x]? with _ | sx
      · simp [execRegular, hs, hx] at h
      · rcases hy : c.v[y]? with _ | sy
        · simp [execRegular, hs, hx, hy] at h
        · rcases hdl : drawLines sx sy (lines.map byte_to_bits) 0
              c.display_memory 0 with _ | ⟨dm, vf⟩
          · simp [execRegular, hs, hx, hy, hdl] at h
          · have hdm : dm.length = 2048 := by
              rw [drawLines_length sx sy (lines.map byte_to_bits) 0
                c.display_memory 0 dm vf hdl, hd]
            have hif : 64 * 32 ≤ dm.length := by omega
            rcases hrep : replace c.v 0xF vf with _ | v'
            · simp [execRegular, hs, hx, hy, hdl, hif, hrep] at h
            · simp only [execRegular, hs, hx, hy, hdl,
                Option.bind_eq_bind, Option.some_bind, if_pos hif, hrep,
                Option.some.injEq] at h
              refine ⟨?_, ?_, ?_⟩ <;>
                simp [← h, replace_length _ _ _ _ hrep, hv, hk, hdm]
  | SysCall =>
    simp only [execRegular, Option.some.injEq] at h
    exact ⟨by simp [← h, hv], by simp [← h, hk], by simp [← h, hd]⟩
  | LoadValToI value =>
    simp only [execRegular, Option.some.injEq] at h
    exact ⟨by simp [← h, hv], by simp [← h, hk], by simp [← h, hd]⟩
  | SkipIfRegValNotEqual x value =>
    simp only [execRegular, Option.some.injEq] at h
    exact ⟨by simp [← h, hv], by simp [← h, hk], by simp [← h, hd]⟩
  | SkipIfRegRegEqual x y =>
    simp only [execRegular, Option.some.injEq] at h
    exact ⟨by simp [← h, hv], by simp [← h, hk], by simp [← h, hd]⟩
  | SkipIfRegRegNotEqual x y =>
    simp only [execRegular, Option.some.injEq] at h
    exact ⟨by simp [← h, hv], by simp [← h, hk], by simp [← h, hd]⟩
  | SkipIfKeyPressed x =>
    simp only [execRegular, Option.some.injEq] at h
    exact ⟨by simp [← h, hv], by simp [← h, hk], by simp [← h, hd]⟩
  | SkipIfKeyNotPressed x =>
    simp only [execRegular, Option.some.injEq] at h
    exact ⟨by simp [← h, hv], by simp [← h, hk], by simp [← h, hd]⟩
  | LoadRegToReg x y =>
    simp only [execRegular, Option.some.injEq] at h
    exact ⟨by simp [← h, hv], by simp [← h, hk], by simp [← h, hd]⟩
  | LoadDelayTimerToReg x =>
    simp only [execRegular, Option.some.injEq] at h
    exact ⟨by simp [← h, hv], by simp [← h, hk], by simp [← h, hd]⟩
  | LoadKeyToReg x =>
    simp only [execRegular, Option.some.injEq] at h
    exact ⟨by simp [← h, hv], by simp [← h, hk], by simp [← h, hd]⟩
  | LoadRegToDelayTimer x =>
    simp only [execRegular, Option.some.injEq] at h
    exact ⟨by simp [← h, hv], by simp [← h, hk], by simp [← h, hd]⟩
  | LoadRegToSoundTimer x =>
    simp only [execRegular, Option.some.injEq] at h
    exact ⟨by simp [← h, hv], by simp [← h, hk], by simp [← h, hd]⟩
  | LoadSpriteLocationToI x =>
    simp only [execRegular, Option.some.injEq] at h
    exact ⟨by simp [← h, hv], by simp [← h, hk], by simp [← h, hd]⟩
  | LoadRegBcdToMem x =>
    simp only [execRegular, Option.some.injEq] at h
    exact ⟨by simp [← h, hv], by simp [← h, hk], by simp [← h, hd]⟩
  | LoadRegsToMem n =>
    simp only [execRegular, Option.some.injEq] at h
    exact ⟨by simp [← h, hv], by simp [← h, hk], by simp [← h, hd]⟩
  | LoadMemToRegs n =>
    simp only [execRegular, Option.some.injEq] at h
    exact ⟨by simp [← h, hv], by simp [← h, hk], by simp [← h, hd]⟩
  | SubRegFromReg x y =>
    simp only [execRegular, Option.some.injEq] at h
    exact ⟨by simp [← h, hv], by simp [← h, hk], by simp [← h, hd]⟩
  | SubnRegFromReg x y =>
    simp only [execRegular, Option.some.injEq] at h
    exact ⟨by simp [← h, hv], by simp [← h, hk], by simp [← h, hd]⟩
  | AddRegToI x =>
    simp only [execRegular, Option.some.injEq] at h
    exact ⟨by simp [← h, hv], by simp [← h, hk], by simp [← h, hd]⟩
  | OrRegReg x y =>
    simp only [execRegular, Option.some.injEq] at h
    exact ⟨by simp [← h, hv], by simp [← h, hk], by simp [← h, hd]⟩
  | AndRegReg x y =>
    simp only [execRegular, Option.some.injEq] at h
    exact ⟨by simp [← h, hv], by simp [← h, hk], by simp [← h, hd]⟩
  | XorRegReg x y =>
    simp only [execRegular, Option.some.injEq] at h
    exact ⟨by simp [← h, hv], by simp [← h, hk], by simp [← h, hd]⟩
  | AddRegToReg x y =>
    simp only [execRegular, Option.some.injEq] at h
    exact ⟨by simp [← h, hv], by simp [← h, hk], by simp [← h, hd]⟩
  | ShiftRightReg x =>
    simp only [execRegular, Option.some.injEq] at h
    exact ⟨by simp [← h, hv], by simp [← h, hk], by simp [← h, hd]⟩
  | ShiftLeftReg x =>
    simp only [execRegular, Option.some.injEq] at h
    exact ⟨by simp [← h, hv], by simp [← h, hk], by simp [← h, hd]⟩
  | ClearScreen =>
    simp only [execRegular, Option.some.injEq] at h
    exact ⟨by simp [← h, hv], by simp [← h, hk], by simp [← h, hd]⟩

/-- C9: executing any decoded instruction on a machine whose register
file has length 16, key buffer length 16 and framebuffer length 2048
yields (when it yields a state at all) a machine with exactly the same
three lengths. -/
theorem C9_fixed_lengths (c : Chip8) (op : MetaOpcode) (c' : Chip8)
    (hv : c.v.length = 16) (hk : c.keyboard.length = 16)
    (hd : c.display_memory.length = 2048)
    (h : execute c op = some c') :
    c'.v.length = 16 ∧ c'.keyboard.length = 16 ∧
      c'.display_memory.length = 2048 := by
  cases op with
  | FlowControl fop =>
    cases fop with
    | Jump addr =>
      simp only [execute, Option.some.injEq] at h
      exact ⟨by simp [← h, hv], by simp [← h, hk], by simp [← h, hd]⟩
    | JumpPlusV0 addr =>
      rcases h0 : c.v[0]? with _ | v0
      · simp [execute, h0] at h
      · simp only [execute, h0, Option.bind_eq_bind, Option.some_bind,
          Option.some.injEq] at h
        exact ⟨by simp [← h, hv], by simp [← h, hk], by simp [← h, hd]⟩
    | Call addr =>
      simp only [execute, Option.some.injEq] at h
      exact ⟨by simp [← h, hv], by simp [← h, hk], by simp [← h, hd]⟩
    | Return =>
      rcases hp : pop c.stack with _ | ⟨s, top⟩
      · simp [execute, hp] at h
      · simp only [execute, hp, Option.bind_eq_bind, Option.some_bind,
          Option.some.injEq] at h
        exact ⟨by simp [← h, hv], by simp [← h, hk], by simp [← h, hd]⟩
  | Regular rop =>
    rcases hr : execRegular c rop with _ | res
    · simp [execute, hr] at h
    · simp only [execute, hr, Option.bind_eq_bind, Option.some_bind,
        Option.some.injEq] at h
      have hres := execRegular_lengths c rop res hv hk hd hr
      exact ⟨by simp [← h, hres.1], by simp [← h, hres.2.1],
        by simp [← h, hres.2.2]⟩
  | Unknown w =>
    simp only [execute, Option.some.injEq] at h
    exact ⟨by simp [← h, hv], by simp [← h, hk], by simp [← h, hd]⟩

/-- C9 witness: the lengths theorem applied to the concrete machine cDraw
(register file 16, key buffer 16, framebuffer 2048) and a SysCall. -/
theorem C9_fixed_lengths_witness :
    ({ cDraw with program_counter := 2 } : Chip8).v.length = 16 ∧
    ({ cDraw with program_counter := 2 } : Chip8).keyboard.length = 16 ∧
    ({ cDraw with program_counter := 2 } : Chip8).display_memory.length
      = 2048 :=
  C9_fixed_lengths cDraw (.Regular .SysCall)
    { cDraw with program_counter := 2 } rfl rfl rfl rfl

/-- Reading any in-range index of the blank framebuffer of cDraw gives an
unlit pixel. -/
theorem blank_read (i : Nat) (h : i < 64 * 32) :
    cDraw.display_memory[i]? = some false := by
  rw [show cDraw.display_memory = List.replicate (64 * 32) false from rfl,
    List.getElem?_replicate, if_pos h]

/-- Drawing one all-ones sprite row at start position (60, 0) on a
framebuffer whose eight target pixels (columns 60 to 63 and, wrapping, 0
to 3 of row 0) are all unlit turns exactly those eight pixels on and
reports no collision. -/
theorem drawRow8_blank (dm : List Bool)
    (h60 : dm[60]? = some false) (h61 : dm[61]? = some false)
    (h62 : dm[62]? = some false) (h63 : dm[63]? = some false)
    (h0 : dm[0]? = some false) (h1 : dm[1]? = some false)
    (h2 : dm[2]? = some false) (h3 : dm[3]? = some false) :
    drawLines 60 0 [[true, true, true, true, true, true, true, true]] 0 dm 0
      = some ((((((((dm.set 60 true).set 61 true).set 62 true).set 63
          true).set 0 true).set 1 true).set 2 true).set 3 true, 0) := by
  simp only [drawLines, drawBits, Option.bind_eq_bind, Option.some_bind,
    Nat.reduceMod, Nat.reduceAdd, Nat.reduceMul, Nat.zero_mod, Nat.mul_zero,
    Nat.add_zero, Nat.zero_add, List.getElem?_set_ne, ne_eq,
    h60, h61, h62, h63, h0, h1, h2, h3, Bool.xor_false, Bool.false_xor,
    Bool.xor_true, Bool.true_xor, Bool.not_true, Bool.not_false,
    Bool.and_false, Bool.false_and, Bool.and_true, Bool.true_and,
    if_false, if_true, Bool.not_not, Nat.reduceEqDiff, not_false_eq_true,
    Bool.false_eq_true, reduceIte]

/-- Drawing one all-ones sprite row at start position (60, 0) on a
framebuffer whose eight target pixels are all lit turns exactly those
eight pixels off and reports a collision. -/
theorem drawRow8_lit (dm : List Bool)
    (h60 : dm[60]? = some true) (h61 : dm[61]? = some true)
    (h62 : dm[62]? = some true) (h63 : dm[63]? = some true)
    (h0 : dm[0]? = some true) (h1 : dm[1]? = some true)
    (h2 : dm[2]? = some true) (h3 : dm[3]? = some true) :
    drawLines 60 0 [[true, true, true, true, true, true, true, true]] 0 dm 0
      = some ((((((((dm.set 60 false).set 61 false).set 62 false).set 63
          false).set 0 false).set 1 false).set 2 false).set 3 false, 1) := by
  simp only [drawLines, drawBits, Option.bind_eq_bind, Option.some_bind,
    Nat.reduceMod, Nat.reduceAdd, Nat.reduceMul, Nat.zero_mod, Nat.mul_zero,
    Nat.add_zero, Nat.zero_add, List.getElem?_set_ne, ne_eq,
    h60, h61, h62, h63, h0, h1, h2, h3, Bool.xor_false, Bool.false_xor,
    Bool.xor_true, Bool.true_xor, Bool.not_true, Bool.not_false,
    Bool.and_false, Bool.false_and, Bool.and_true, Bool.true_and,
    if_false, if_true, Bool.not_not, Nat.reduceEqDiff, not_false_eq_true,
    Bool.false_eq_true, reduceIte]

/-- The first draw on cDraw produces exactly the machine cAfter1. -/
theorem draw1 : execute cDraw (.Regular (.DrawSprite 0 1 1)) = some cAfter1 := by
  simp only [execute, execRegular, Option.bind_eq_bind]
  rw [show sliceBytes cDraw.memory cDraw.reg_i 1 = some [0xFF] from rfl,
    Option.some_bind]
  rw [show List.map byte_to_bits [0xFF] =
    [[true, true, true, true, true, true, true, true]] from rfl]
  rw [show cDraw.v[0]? = some 60 from rfl, Option.some_bind]
  rw [show cDraw.v[1]? = some 0 from rfl, Option.some_bind]
  rw [drawRow8_blank cDraw.display_memory
    (blank_read 60 (by norm_num)) (blank_read 61 (by norm_num))
    (blank_read 62 (by norm_num)) (blank_read 63 (by norm_num))
    (blank_read 0 (by norm_num)) (blank_read 1 (by norm_num))
    (blank_read 2 (by norm_num)) (blank_read 3 (by norm_num)),
    Option.some_bind]
  have hlen : ((((((((cDraw.display_memory.set 60 true).set 61 true).set 62
      true).set 63 true).set 0 true).set 1 true).set 2 true).set 3
      true).length = 64 * 32 := by
    simp only [List.length_set]
    rw [show cDraw.display_memory = List.replicate (64 * 32) false from rfl,
      List.length_replicate]
  rw [hlen, if_pos (Nat.le_refl (64 * 32))]
  rw [show replace cDraw.v 15 0 = some (cDraw.v.set 15 0) from rfl,
    Option.some_bind, Option.some_bind]
  rfl

/-- Every one of the eight target pixels is lit on the framebuffer of
cAfter1. -/
theorem lit_reads :
    cAfter1.display_memory[60]? = some true ∧
    cAfter1.display_memory[61]? = some true ∧
    cAfter1.display_memory[62]? = some true ∧
    cAfter1.display_memory[63]? = some true ∧
    cAfter1.display_memory[0]? = some true ∧
    cAfter1.display_memory[1]? = some true ∧
    cAfter1.display_memory[2]? = some true ∧
    cAfter1.display_memory[3]? = some true := by
  rw [show cAfter1.display_memory = row0Lit from rfl]
  refine ⟨?_, ?_, ?_, ?_, ?_, ?_, ?_, ?_⟩ <;>
    simp only [row0Lit, List.getElem?_set_ne, List.getElem?_set_self,
      List.length_set, List.length_replicate, Nat.reduceEqDiff, ne_eq,
      not_false_eq_true, Nat.reduceMul, Nat.reduceLT]

/-- The second draw, on cAfter1, produces exactly the machine cAfter2. -/
theorem draw2 : execute cAfter1 (.Regular (.DrawSprite 0 1 1)) = some cAfter2 := by
  simp only [execute, execRegular, Option.bind_eq_bind]
  rw [show sliceBytes cAfter1.memory cAfter1.reg_i 1 = some [0xFF] from rfl,
    Option.some_bind]
  rw [show List.map byte_to_bits [0xFF] =
    [[true, true, true, true, true, true, true, true]] from rfl]
  rw [show cAfter1.v[0]? = some 60 from rfl, Option.some_bind]
  rw [show cAfter1.v[1]? = some 0 from rfl, Option.some_bind]
  rw [drawRow8_lit cAfter1.display_memory
    lit_reads.1 lit_reads.2.1 lit_reads.2.2.1 lit_reads.2.2.2.1
    lit_reads.2.2.2.2.1 lit_reads.2.2.2.2.2.1 lit_reads.2.2.2.2.2.2.1
    lit_reads.2.2.2.2.2.2.2, Option.some_bind]
  have hlen : ((((((((cAfter1.display_memory.set 60 false).set 61
      false).set 62 false).set 63 false).set 0 false).set 1 false).set 2
      false).set 3 false).length = 64 * 32 := by
    simp only [List.length_set]
    rw [show cAfter1.display_memory = row0Lit from rfl]
    simp only [row0Lit, List.length_set]
    rw [List.length_replicate]
  rw [hlen, if_pos (Nat.le_refl (64 * 32))]
  rw [show replace cAfter1.v 15 1 = some (cAfter1.v.set 15 1) from rfl,
    Option.some_bind, Option.some_bind]
  rfl

/-- XORing the same row off again restores the all-blank framebuffer. -/
theorem cAfter2_display_blank :
    cAfter2.display_memory = List.replicate (64 * 32) false := by
  apply List.ext_getElem?
  intro n
  rw [show cAfter2.display_memory =
    ((((((((row0Lit.set 60 false).set 61 false).set 62 false).set 63
      false).set 0 false).set 1 false).set 2 false).set 3 false) from rfl]
  simp only [row0Lit, List.getElem?_set, List.length_set,
    List.length_replicate, List.getElem?_replicate, Nat.reduceMul]
  split_ifs <;> first | rfl | omega

/-- C4: drawing the 8x1 sprite byte 0xFF at (60, 0) on the blank 64 by 32
framebuffer of cDraw lights exactly the pixels of row 0 at columns 60,
61, 62, 63 and, wrapping around the right edge, 0, 1, 2, 3, and sets the
collision flag v[0xF] to 0; drawing the same sprite again at the same
place restores the all-blank framebuffer (XOR involution) and sets
v[0xF] to 1. -/
theorem C4_draw_wrap_xor_collision :
    ((execute cDraw (.Regular (.DrawSprite 0 1 1))).bind (fun c1 =>
      (execute c1 (.Regular (.DrawSprite 0 1 1))).map (fun c2 =>
        (c1.display_memory, c1.v[0xF]?, c2.display_memory, c2.v[0xF]?))))
      = some (row0Lit, some 0, List.replicate (64 * 32) false, some 1) := by
  rw [draw1, Option.some_bind, draw2]
  rw [show (some cAfter2).map (fun c2 =>
      (cAfter1.display_memory, cAfter1.v[0xF]?, c2.display_memory,
        c2.v[0xF]?)) =
    some (cAfter1.display_memory, cAfter1.v[0xF]?, cAfter2.display_memory,
      cAfter2.v[0xF]?) from rfl]
  rw [cAfter2_display_blank]
  rfl
